import Mathlib

/-!
Shallow embedding of the Castor to-do/reminder bot core (`todos.py`).

The persistence layer (TinyDB with a YAML storage backend) is modelled as an
abstract document store: each table is a list of `(doc_id, document)` pairs
plus a fresh-id counter, and a document is an association list from field
names to values, mirroring the Python dicts that TinyDB stores.  Queries
(`Query().field == v`, `Query().field.any([x])`) test a named field of the
document and are false when the field is absent, exactly as in TinyDB.

Time values: `dateutil.parser.parse` accepts many formats; the embedding
models the canonical subset actually produced and consumed by the program
(`yyyy-mm-dd`, `yyyy-mm-dd HH:MM` and `yyyy-mm-dd HH:MM:SS`), with field
validation, and returns `none` (the source raises `ToDoException`) on any
other input.  Instants are interpreted in one fixed timezone, as the source
pins everything to one zone; an instant is a second count in a proleptic
Gregorian calendar.  `datetime + timedelta(days=k)` is addition of
`k * 86400` seconds.
-/

namespace Castor

/-- A value stored in a document field: TinyDB documents are dicts whose
values here are strings, integers, or lists of strings. -/
inductive Val where
  | s : String → Val
  | i : Nat → Val
  | ls : List String → Val
deriving DecidableEq, Repr

/-- A persisted document: an association list from field names to values. -/
abbrev Doc := List (String × Val)

/-- First element of a list satisfying a predicate. -/
def firstMatch {α : Type} (p : α → Bool) : List α → Option α
  | [] => none
  | x :: xs => if p x then some x else firstMatch p xs

/-- Read a field of a document (Python `doc['k']` / `doc.get('k')`). -/
def dget (d : Doc) (k : String) : Option Val :=
  (firstMatch (fun x => x.1 == k) d).map (fun x => x.2)

/-- Replace the value of field `k` (Python `doc['k'] = v` on an existing key;
appends when the key is absent, as dict assignment would). -/
def dset (d : Doc) (k : String) (v : Val) : Doc :=
  if (firstMatch (fun x => x.1 == k) d).isSome then
    d.map (fun x => if x.1 == k then (k, v) else x)
  else d ++ [(k, v)]

/-- One TinyDB table: documents keyed by auto-assigned integer ids. -/
structure Table where
  docs : List (Nat × Doc)
  nextId : Nat
deriving DecidableEq, Repr

/-- `table.get(doc_id=i)`. -/
def getById (t : Table) (i : Nat) : Option Doc :=
  (firstMatch (fun x => x.1 == i) t.docs).map (fun x => x.2)

/-- `table.get(cond)`: first document satisfying the query. -/
def getWhere (t : Table) (p : Doc → Bool) : Option (Nat × Doc) :=
  firstMatch (fun x => p x.2) t.docs

/-- `table.search(cond)`: all documents satisfying the query. -/
def searchWhere (t : Table) (p : Doc → Bool) : List (Nat × Doc) :=
  t.docs.filter (fun x => p x.2)

/-- `table.insert(doc)`: assigns the next id and appends. -/
def insertDoc (t : Table) (d : Doc) : Nat × Table :=
  (t.nextId, { docs := t.docs ++ [(t.nextId, d)], nextId := t.nextId + 1 })

/-- `table.remove(cond)`: delete every document satisfying the query. -/
def removeWhere (t : Table) (p : Doc → Bool) : Table :=
  { t with docs := t.docs.filter (fun x => ! p x.2) }

/-- `table.remove(doc_ids=ids)`. -/
def removeIds (t : Table) (ids : List Nat) : Table :=
  { t with docs := t.docs.filter (fun x => ! ids.contains x.1) }

/-- `table.update(fields, doc_ids=[i])` for a single updated field. -/
def updateById (t : Table) (i : Nat) (k : String) (v : Val) : Table :=
  { t with docs := t.docs.map (fun x => if x.1 == i then (x.1, dset x.2 k v) else x) }

/-- Query `Query().f == v`: false when the field is absent. -/
def qEq (f : String) (v : Val) (d : Doc) : Bool :=
  dget d f == some v

/-- Query `Query().f.any([x])`: the field is a list containing `x`;
false when the field is absent or not a list. -/
def qAny (f : String) (x : String) (d : Doc) : Bool :=
  match dget d f with
  | some (Val.ls l) => l.contains x
  | _ => false

/-- The whole persistent state: the three tables of `db`. -/
structure Store where
  people : Table
  tasks : Table
  reminders : Table
deriving DecidableEq, Repr

/-- Errors: `ToDoException msg` raised by the source, and Python `KeyError`
raised when hydrating a document that misses a required field. -/
inductive Err where
  | todo : String → Err
  | keyError : String → Err
deriving DecidableEq, Repr

/-- Python whitespace, as stripped by `str.strip()` (ASCII range). -/
def isWs (c : Char) : Bool :=
  c == ' ' || c == '\t' || c == '\n' || c == '\r' || c == '\x0b' || c == '\x0c'

/-- `str.strip()` on a character list. -/
def trimChars (l : List Char) : List Char :=
  ((l.dropWhile isWs).reverse.dropWhile isWs).reverse

/-- `str.lower()` on one character (ASCII case folding, which covers the
names this program stores). -/
def lowerChar (c : Char) : Char :=
  if 'A' ≤ c ∧ c ≤ 'Z' then Char.ofNat (c.toNat + 32) else c

/-- `format_name`: trim, lower-case, spaces to underscores
(`name.strip().lower().replace(" ", "_")`). -/
def format_name (name : String) : String :=
  String.mk (((trimChars name.data).map lowerChar).map (fun c => if c = ' ' then '_' else c))

/-! ## Time utilities

Canonical parsing/formatting of `DATE_FMT = "%Y-%m-%d"` and
`TIME_FMT = "%Y-%m-%d %X"` (= `%H:%M:%S`). -/

/-- A wall-clock date-time in the fixed timezone. -/
structure DateTime where
  year : Nat
  month : Nat
  day : Nat
  hour : Nat
  minute : Nat
  second : Nat
deriving DecidableEq, Repr

def isLeap (y : Nat) : Bool :=
  y % 4 == 0 && (y % 100 != 0 || y % 400 == 0)

def daysInMonth (y m : Nat) : Nat :=
  if m = 1 then 31 else if m = 2 then (if isLeap y then 29 else 28)
  else if m = 3 then 31 else if m = 4 then 30 else if m = 5 then 31
  else if m = 6 then 30 else if m = 7 then 31 else if m = 8 then 31
  else if m = 9 then 30 else if m = 10 then 31 else if m = 11 then 30
  else 31

/-- Split a character list on a separator. -/
def splitChar (c : Char) : List Char → List (List Char)
  | [] => [[]]
  | x :: xs =>
    if x = c then [] :: splitChar c xs
    else match splitChar c xs with
      | [] => [[x]]
      | g :: gs => (x :: g) :: gs

/-- Numeric value of a nonempty all-digit character group. -/
def digitsVal (l : List Char) : Option Nat :=
  if l = [] then none
  else if l.all (fun c => c.isDigit) then
    some (l.foldl (fun a c => 10 * a + (c.toNat - 48)) 0)
  else none

/-- Parse `yyyy-mm-dd` with field validation (out-of-range dates make
`dateutil` raise). -/
def parseDateFields (l : List Char) : Option (Nat × Nat × Nat) :=
  match splitChar '-' l with
  | [ys, ms, ds] =>
    match digitsVal ys, digitsVal ms, digitsVal ds with
    | some y, some m, some d =>
      if 1 ≤ y ∧ y ≤ 9999 ∧ 1 ≤ m ∧ m ≤ 12 ∧ 1 ≤ d ∧ d ≤ daysInMonth y m then
        some (y, m, d)
      else none
    | _, _, _ => none
  | _ => none

/-- Parse `HH:MM` or `HH:MM:SS` with field validation. -/
def parseTodFields (l : List Char) : Option (Nat × Nat × Nat) :=
  match splitChar ':' l with
  | [hs, ms] =>
    match digitsVal hs, digitsVal ms with
    | some h, some m => if h ≤ 23 ∧ m ≤ 59 then some (h, m, 0) else none
    | _, _ => none
  | [hs, ms, ss] =>
    match digitsVal hs, digitsVal ms, digitsVal ss with
    | some h, some m, some s =>
      if h ≤ 23 ∧ m ≤ 59 ∧ s ≤ 59 then some (h, m, s) else none
    | _, _, _ => none
  | _ => none

/-- Parse a date or date-time string in the canonical forms the program
produces and stores; `none` models a `dateutil` parse failure. -/
def parseDT (s : String) : Option DateTime :=
  match splitChar ' ' s.data with
  | [d] =>
    match parseDateFields d with
    | some x => some ⟨x.1, x.2.1, x.2.2, 0, 0, 0⟩
    | none => none
  | [d, t] =>
    match parseDateFields d, parseTodFields t with
    | some x, some h => some ⟨x.1, x.2.1, x.2.2, h.1, h.2.1, h.2.2⟩
    | _, _ => none
  | _ => none

def pad2 (n : Nat) : String :=
  if n < 10 then "0" ++ Nat.repr n else Nat.repr n

def pad4 (n : Nat) : String :=
  if n < 10 then "000" ++ Nat.repr n
  else if n < 100 then "00" ++ Nat.repr n
  else if n < 1000 then "0" ++ Nat.repr n
  else Nat.repr n

/-- The two canonical `strftime` patterns used by the source. -/
inductive Fmt where
  | date
  | time
deriving DecidableEq, Repr

/-- `dt.strftime(DATE_FMT)`. -/
def strfDate (dt : DateTime) : String :=
  pad4 dt.year ++ "-" ++ pad2 dt.month ++ "-" ++ pad2 dt.day

/-- `dt.strftime(TIME_FMT)` (`%X` in the C locale is `%H:%M:%S`). -/
def strfTime (dt : DateTime) : String :=
  strfDate dt ++ " " ++ pad2 dt.hour ++ ":" ++ pad2 dt.minute ++ ":" ++ pad2 dt.second

def strf : Fmt → DateTime → String
  | Fmt.date => strfDate
  | Fmt.time => strfTime

/-- Days from 0001-01-01 to the start of year `y`. -/
def daysBeforeYear (y : Nat) : Nat :=
  365 * (y - 1) + (y - 1) / 4 + (y - 1) / 400 - (y - 1) / 100

/-- Days from the start of year `y` to the start of month `m` of year `y`. -/
def daysBeforeMonth (y m : Nat) : Nat :=
  (List.range (m - 1)).foldl (fun a k => a + daysInMonth y (k + 1)) 0

/-- Day number of a date: days since 0001-01-01. -/
def toDayNumber (dt : DateTime) : Nat :=
  daysBeforeYear dt.year + daysBeforeMonth dt.year dt.month + (dt.day - 1)

/-- The instant of a wall-clock date-time, as a second count. -/
def toSec (dt : DateTime) : Nat :=
  toDayNumber dt * 86400 + dt.hour * 3600 + dt.minute * 60 + dt.second

/-- Inverse of `toDayNumber` (civil-from-days on a proleptic Gregorian
calendar, era-based, constant-time). -/
def dayNumberToDate (n : Nat) : Nat × Nat × Nat :=
  let z := n + 306
  let era := z / 146097
  let doe := z % 146097
  let yoe := (doe - doe / 1460 + doe / 36524 - doe / 146096) / 365
  let y := yoe + era * 400
  let doy := doe - (365 * yoe + yoe / 4 - yoe / 100)
  let mp := (5 * doy + 2) / 153
  let d := doy - (153 * mp + 2) / 5 + 1
  let m := if mp < 10 then mp + 3 else mp - 9
  (y + (if m ≤ 2 then 1 else 0), m, d)

/-- The wall-clock date-time of an instant. -/
def dtFromSec (s : Nat) : DateTime :=
  let x := dayNumberToDate (s / 86400)
  let r := s % 86400
  ⟨x.1, x.2.1, x.2.2, r / 3600, r % 3600 / 60, r % 60⟩

/-- Lexicographic order on character lists by code point. -/
def charsLt : List Char → List Char → Bool
  | [], [] => false
  | [], _ :: _ => true
  | _ :: _, [] => false
  | a :: as, b :: bs =>
    if a < b then true else if b < a then false else charsLt as bs

/-- Python string `<`: lexicographic comparison by code point.  The
scheduler compares the stored canonical time strings this way. -/
def strLt (a b : String) : Bool := charsLt a.data b.data

/-- Message of the `ToDoException` raised on a parse failure. -/
def parseErrMsg (time : String) : String :=
  "Was unable to parse the string `" ++ time ++ "` as a time. To be sure, format times as `yyyy-mm-dd hh:mm`, but most English-language strings should be fine."

/-- `datetime_from_string(time)` without a format argument: the parsed
date-time, or a raised `ToDoException`. -/
def datetime_from_string (time : String) : Except Err DateTime :=
  match parseDT time with
  | some dt => Except.ok dt
  | none => Except.error (Err.todo (parseErrMsg time))

/-- `datetime_from_string(time, format)`: parse and re-format. -/
def datetime_from_string_fmt (time : String) (format : Fmt) : Except Err String :=
  match parseDT time with
  | some dt => Except.ok (strf format dt)
  | none => Except.error (Err.todo (parseErrMsg time))

/-! ## Entity layer -/

/-- Hydrated `Person` (the transient in-memory projection). -/
structure Person where
  doc_id : Nat
  name : String
  pretty_name : String
  id : String
deriving DecidableEq, Repr

/-- Hydrated `Task`. -/
structure Task where
  doc_id : Nat
  name : String
  content : String
  deadline : Option String
deriving DecidableEq, Repr

/-- Hydrated `Reminder`. -/
structure Reminder where
  doc_id : Nat
  time : String
  names : List String
  recurring : String
  content : String
  task_id : Option Nat
deriving DecidableEq, Repr

/-- `Person.__init__`: read the required fields, `none` models `KeyError`. -/
def hydratePerson (i : Nat) (d : Doc) : Option Person :=
  match dget d "name", dget d "pretty_name", dget d "id" with
  | some (Val.s n), some (Val.s pn), some (Val.s pid) =>
    some { doc_id := i, name := n, pretty_name := pn, id := pid }
  | _, _, _ => none

/-- `Task.__init__`. -/
def hydrateTask (i : Nat) (d : Doc) : Option Task :=
  match dget d "name", dget d "content" with
  | some (Val.s n), some (Val.s c) =>
    some { doc_id := i, name := n, content := c,
           deadline := match dget d "deadline" with
             | some (Val.s dl) => some dl
             | _ => none }
  | _, _ => none

/-- `Reminder.__init__`. -/
def hydrateReminder (i : Nat) (d : Doc) : Option Reminder :=
  match dget d "time", dget d "names", dget d "recurring", dget d "content" with
  | some (Val.s t), some (Val.ls ns), some (Val.s rc), some (Val.s c) =>
    some { doc_id := i, time := t, names := ns, recurring := rc, content := c,
           task_id := match dget d "task_id" with
             | some (Val.i k) => some k
             | _ => none }
  | _, _, _, _ => none

/-- `Person.from_name`: normalize the name, query the people table.
A found but malformed document raises (`KeyError`). -/
def personFromName (st : Store) (name : String) : Except Err (Option Person) :=
  let n := format_name name
  match getWhere st.people (qEq "name" (Val.s n)) with
  | none => Except.ok none
  | some x =>
    match hydratePerson x.1 x.2 with
    | some p => Except.ok (some p)
    | none => Except.error (Err.keyError "person")

/-- `Task.from_id`. -/
def taskFromId (st : Store) (task_id : Nat) : Except Err (Option Task) :=
  match getById st.tasks task_id with
  | none => Except.ok none
  | some d =>
    match hydrateTask task_id d with
    | some t => Except.ok (some t)
    | none => Except.error (Err.keyError "task")

/-- `Reminder.from_id`. -/
def reminderFromId (st : Store) (reminder_id : Nat) : Except Err (Option Reminder) :=
  match getById st.reminders reminder_id with
  | none => Except.ok none
  | some d =>
    match hydrateReminder reminder_id d with
    | some r => Except.ok (some r)
    | none => Except.error (Err.keyError "reminder")

/-- `Task.remove_task(task_id)`: look the task up; when present, remove it
and remove reminders matching `Query().task == task_id`.  Note the source
queries the field `task`, while reminder documents store the link under the
key `task_id`, so the reminder-removal query matches no stored reminder. -/
def remove_task (st : Store) (task_id : Nat) : Except Err (Option Task × Store) :=
  match taskFromId st task_id with
  | Except.error e => Except.error e
  | Except.ok none => Except.ok (none, st)
  | Except.ok (some t) =>
    let tasks := removeIds st.tasks [task_id]
    let reminders := removeWhere st.reminders (qEq "task" (Val.i task_id))
    Except.ok (some t, { st with tasks := tasks, reminders := reminders })

/-- `Reminder.remove_reminder(reminder_id)`. -/
def remove_reminder (st : Store) (reminder_id : Nat) : Except Err (Option Reminder × Store) :=
  match reminderFromId st reminder_id with
  | Except.error e => Except.error e
  | Except.ok none => Except.ok (none, st)
  | Except.ok (some r) =>
    Except.ok (some r, { st with reminders := removeIds st.reminders [reminder_id] })

/-- `Person.remove_person(name)`: remove the person document, then for every
task owned by `name`, remove reminders matching `Query().name == name` and
remove the task via `remove_task`.  Note that reminder documents have a
`names` list field and no `name` field, so the reminder-removal query
matches no stored reminder. -/
def remove_person (st : Store) (name : String) : Except Err Store :=
  let n := format_name name
  let st1 : Store := { st with people := removeWhere st.people (qEq "name" (Val.s n)) }
  let found := searchWhere st1.tasks (qEq "name" (Val.s n))
  found.foldlM (fun acc td =>
    let acc1 : Store := { acc with reminders := removeWhere acc.reminders (qEq "name" (Val.s n)) }
    match remove_task acc1 td.1 with
    | Except.error e => Except.error e
    | Except.ok (_, acc2) => Except.ok acc2) st1

/-- Message of the `ToDoException` raised on an empty task. -/
def emptyTaskMsg : String := "Cannot add an empty task to the to-do list..."

/-- `Person.add_task(content, deadline)` — `deadline` is the empty string
when absent (the bot passes `""` by default; Python truthiness test). -/
def add_task (st : Store) (p : Person) (content : String) (deadline : String) :
    Except Err (Option Task × Store) :=
  if content = "" then Except.error (Err.todo emptyTaskMsg)
  else if deadline ≠ "" then
    match datetime_from_string_fmt deadline Fmt.date with
    | Except.error e => Except.error e
    | Except.ok dl =>
      let ins := insertDoc st.tasks [("name", Val.s p.name), ("content", Val.s content), ("deadline", Val.s dl)]
      let st2 : Store := { st with tasks := ins.2 }
      match taskFromId st2 ins.1 with
      | Except.error e => Except.error e
      | Except.ok t => Except.ok (t, st2)
  else
    let ins := insertDoc st.tasks [("name", Val.s p.name), ("content", Val.s content)]
    let st2 : Store := { st with tasks := ins.2 }
    match taskFromId st2 ins.1 with
    | Except.error e => Except.error e
    | Except.ok t => Except.ok (t, st2)

def recurring_options : List String := ["daily", "weekly", "monthly", "yearly"]

/-- The person-existence loop of `Reminder.new_reminder`:
`for name in names: person = Person.from_name(name); if name and not person: raise`. -/
def checkNames (st : Store) : List String → Except Err Unit
  | [] => Except.ok ()
  | name :: rest =>
    match personFromName st name with
    | Except.error e => Except.error e
    | Except.ok p =>
      if name ≠ "" ∧ p = none then
        Except.error (Err.todo ("Cannot generate reminder for person `" ++ name ++ "` as this name is not recognized."))
      else checkNames st rest

/-- `Reminder.new_reminder(time, names, recurring, content, task_id)`.
Absent optional string arguments are the empty string (Python falsy). -/
def new_reminder (st : Store) (time0 : String) (names0 : List String)
    (recurring0 : String) (content0 : String) (task_id : Option Nat) :
    Except Err (Option Reminder × Store) :=
  let names1 := (names0.filter (fun s => s ≠ "")).map format_name
  let step1 : Except Err (String × List String × String) :=
    match task_id with
    | none => Except.ok (time0, names1, content0)
    | some tid =>
      match taskFromId st tid with
      | Except.error e => Except.error e
      | Except.ok none =>
        Except.error (Err.todo ("There is no task with id `[" ++ Nat.repr tid ++ "]`..."))
      | Except.ok (some task) =>
        let time1 := if time0 = "" then (match task.deadline with
          | some dl => dl ++ " 10:00"
          | none => time0) else time0
        let names2 := if task.name ∈ names1 then names1 else task.name :: names1
        let content1 := if content0 = "" then task.content else content0
        Except.ok (time1, names2, content1)
  match step1 with
  | Except.error e => Except.error e
  | Except.ok (time1, names2, content1) =>
    let step2 : Except Err String :=
      if time1 ≠ "" then datetime_from_string_fmt time1 Fmt.time else Except.ok time1
    match step2 with
    | Except.error e => Except.error e
    | Except.ok time2 =>
      match checkNames st names2 with
      | Except.error e => Except.error e
      | Except.ok _ =>
        let step3 : Except Err String :=
          if recurring0 ≠ "" then
            let rlow := recurring0.toLower
            if rlow ∈ recurring_options then Except.ok rlow
            else Except.error (Err.todo "The value for `recurring` must be 'daily', 'weekly', 'monthly' or 'yearly' (leave empty for non-recurring).")
          else Except.ok "off"
        match step3 with
        | Except.error e => Except.error e
        | Except.ok recurring1 =>
          if ¬ (time2 ≠ "" ∧ names2 ≠ [] ∧ content1 ≠ "") then
            Except.error (Err.todo "Either a time and content or a task (with deadline) must be provided to make a reminder.")
          else
            let base : Doc := [("time", Val.s time2), ("names", Val.ls names2),
                               ("content", Val.s content1), ("recurring", Val.s recurring1)]
            let doc : Doc := match task_id with
              | some tid => base ++ [("task_id", Val.i tid)]
              | none => base
            let ins := insertDoc st.reminders doc
            let st2 : Store := { st with reminders := ins.2 }
            match reminderFromId st2 ins.1 with
            | Except.error e => Except.error e
            | Except.ok r => Except.ok (r, st2)

/-! ## Reminder scheduler -/

/-- Fuel-bounded form of the catch-up loop
`while next_time < dt_now: next_time += timedelta(...)`.
One unit of fuel is consumed per iteration; the callers pass enough fuel
for the loop to reach its exit condition (`advanceLoop_ge` below), since
the step at every call site is a strictly positive number of seconds. -/
def advanceLoop (fuel now step next : Nat) : Nat :=
  match fuel with
  | 0 => next
  | f + 1 => if next < now then advanceLoop f now step (next + step) else next

/-- The catch-up loop on instants: repeatedly add `step` seconds to `next`
until it is no longer before `now`. -/
def advance (now step next : Nat) : Nat :=
  advanceLoop (now - next) now step next

/-- The canonical string persisted for an advanced reminder:
`next_time.strftime(TIME_FMT)`. -/
def newTimeStr (dtNow : DateTime) (step : Nat) (t0 : DateTime) : String :=
  strfTime (dtFromSec (advance (toSec dtNow) step (toSec t0)))

/-- `Reminder.set_new_time(time)`: re-parse and re-format the string, update
the document and the in-memory object. -/
def set_new_time (st : Store) (r : Reminder) (time : String) :
    Except Err (Reminder × Store) :=
  match datetime_from_string_fmt time Fmt.time with
  | Except.error e => Except.error e
  | Except.ok t =>
    Except.ok ({ r with time := t },
               { st with reminders := updateById st.reminders r.doc_id "time" (Val.s t) })

/-- The `if/elif/elif/elif/else` chain on `recurring` in the loop body of
`update_reminders`: the advanced instant reached by the catch-up `while`
loop of the matching branch — `+1 day` steps for `daily`, `monthly` and
`yearly`, `+7 days` for `weekly` — or `none` for the `else` branch
(non-recurring: delete and `continue`). -/
def advanceFor (dtNow : DateTime) (next0 : DateTime) (rc : String) : Option Nat :=
  if rc = "daily" then some (advance (toSec dtNow) 86400 (toSec next0))
  else if rc = "weekly" then some (advance (toSec dtNow) (7 * 86400) (toSec next0))
  else if rc = "monthly" then some (advance (toSec dtNow) 86400 (toSec next0))
  else if rc = "yearly" then some (advance (toSec dtNow) 86400 (toSec next0))
  else none

/-- The body of the `for reminder in reminders` loop of
`Reminder.update_reminders`, for one hydrated reminder.  The source appends
the reminder object to `reminders_to_show` before advancing it; for a
recurring reminder `set_new_time` then mutates that same object, so the
entry of the returned list carries the updated `time` — the embedding
constructs the list entry after the advancement to reproduce the aliasing. -/
def processOne (dtNow : DateTime) (nowStr : String) (st : Store)
    (shown : List Reminder) (r : Reminder) : Except Err (Store × List Reminder) :=
  if strLt r.time nowStr then
    match datetime_from_string r.time with
    | Except.error e => Except.error e
    | Except.ok next0 =>
      match advanceFor dtNow next0 r.recurring with
      | some nextSec =>
        match set_new_time st r (strfTime (dtFromSec nextSec)) with
        | Except.error e => Except.error e
        | Except.ok (r2, st2) => Except.ok (st2, shown ++ [r2])
      | none =>
        match remove_reminder st r.doc_id with
        | Except.error e => Except.error e
        | Except.ok (_, st2) => Except.ok (st2, shown ++ [r])
  else Except.ok (st, shown)

/-- The `for` loop of `Reminder.update_reminders` over the hydrated list. -/
def pollLoop (dtNow : DateTime) (nowStr : String) :
    List Reminder → Store → List Reminder → Except Err (Store × List Reminder)
  | [], st, shown => Except.ok (st, shown)
  | r :: rest, st, shown =>
    match processOne dtNow nowStr st shown r with
    | Except.error e => Except.error e
    | Except.ok (st2, shown2) => pollLoop dtNow nowStr rest st2 shown2

/-- Hydration of a document list into `Reminder` objects; the list
comprehension raises `KeyError` at the first malformed document. -/
def hydrateDocs : List (Nat × Doc) → Except Err (List Reminder)
  | [] => Except.ok []
  | x :: xs =>
    match hydrateReminder x.1 x.2 with
    | none => Except.error (Err.keyError "reminder")
    | some r =>
      match hydrateDocs xs with
      | Except.error e => Except.error e
      | Except.ok rs => Except.ok (r :: rs)

/-- Hydration of `cls.table.all()`. -/
def hydrateAll (t : Table) : Except Err (List Reminder) :=
  hydrateDocs t.docs

/-- `Reminder.update_reminders()`, with the current instant passed as a
parameter: returns the due list and the updated store. -/
def update_reminders (st : Store) (dtNow : DateTime) :
    Except Err (List Reminder × Store) :=
  match hydrateAll st.reminders with
  | Except.error e => Except.error e
  | Except.ok reminders =>
    match pollLoop dtNow (strfTime dtNow) reminders st [] with
    | Except.error e => Except.error e
    | Except.ok (st2, shown) => Except.ok (shown, st2)

/-- The per-iteration increment, in seconds, that `update_reminders`
actually applies for each recurrence value: `timedelta(days=7)` for
`weekly`, `timedelta(days=1)` for `daily`, `monthly` and `yearly`. -/
def stepOf (rc : String) : Nat :=
  if rc = "weekly" then 7 * 86400 else 86400

/-- What one reminder contributes to the returned due list when its
processing succeeds: nothing when not due; the original object for a
non-recurring due reminder; the object with the advanced, re-parsed and
re-formatted time for a recurring due one.  The empty lists in the parse
cases are unreachable whenever the whole poll returns without error. -/
def contrib (dtNow : DateTime) (nowStr : String) (r : Reminder) : List Reminder :=
  if strLt r.time nowStr then
    match parseDT r.time with
    | none => []
    | some t0 =>
      match advanceFor dtNow t0 r.recurring with
      | some nextSec =>
        match parseDT (strfTime (dtFromSec nextSec)) with
        | none => []
        | some d2 => [{ r with time := strfTime d2 }]
      | none => [r]
  else []

/-! ## Concrete fixtures -/

def docAlice : Doc :=
  [("name", Val.s "alice"), ("pretty_name", Val.s "Alice"), ("id", Val.s "111")]

def aliceP : Person := ⟨1, "alice", "Alice", "111"⟩

def docTaskMilk : Doc :=
  [("name", Val.s "alice"), ("content", Val.s "buy milk"), ("deadline", Val.s "2024-06-01")]

def docRemLinked : Doc :=
  [("time", Val.s "2024-06-01 10:00:00"), ("names", Val.ls ["alice"]),
   ("content", Val.s "buy milk"), ("recurring", Val.s "off"), ("task_id", Val.i 1)]

/-- Person `alice` with task 1 (deadline 2024-06-01) and reminder 1 linked
to task 1. -/
def stCascade : Store :=
  { people := { docs := [(1, docAlice)], nextId := 2 },
    tasks := { docs := [(1, docTaskMilk)], nextId := 2 },
    reminders := { docs := [(1, docRemLinked)], nextId := 2 } }

def docRemMonthly : Doc :=
  [("time", Val.s "2024-01-15 10:00:00"), ("names", Val.ls ["alice"]),
   ("content", Val.s "pay rent"), ("recurring", Val.s "monthly")]

def docRemYearly : Doc :=
  [("time", Val.s "2023-01-15 10:00:00"), ("names", Val.ls ["alice"]),
   ("content", Val.s "renew lease"), ("recurring", Val.s "yearly")]

/-- A monthly reminder due at 2024-01-15 10:00:00 and a yearly one due at
2023-01-15 10:00:00. -/
def stMY : Store :=
  { people := { docs := [(1, docAlice)], nextId := 2 },
    tasks := { docs := [], nextId := 1 },
    reminders := { docs := [(1, docRemMonthly), (2, docRemYearly)], nextId := 3 } }

def docRemMonthlyAfter : Doc :=
  [("time", Val.s "2024-01-17 10:00:00"), ("names", Val.ls ["alice"]),
   ("content", Val.s "pay rent"), ("recurring", Val.s "monthly")]

def docRemYearlyAfter : Doc :=
  [("time", Val.s "2024-01-17 10:00:00"), ("names", Val.ls ["alice"]),
   ("content", Val.s "renew lease"), ("recurring", Val.s "yearly")]

/-- `stMY` after the poll at 2024-01-16 12:00:00: both reminders were
advanced day by day to 2024-01-17 10:00:00. -/
def stMYAfter : Store :=
  { people := { docs := [(1, docAlice)], nextId := 2 },
    tasks := { docs := [], nextId := 1 },
    reminders := { docs := [(1, docRemMonthlyAfter), (2, docRemYearlyAfter)], nextId := 3 } }

def docRemDaily : Doc :=
  [("time", Val.s "2024-01-01 10:00:00"), ("names", Val.ls ["alice"]),
   ("content", Val.s "water plants"), ("recurring", Val.s "daily")]

/-- A daily reminder due at 2024-01-01 10:00:00. -/
def stDaily : Store :=
  { people := { docs := [(1, docAlice)], nextId := 2 },
    tasks := { docs := [], nextId := 1 },
    reminders := { docs := [(1, docRemDaily)], nextId := 2 } }

/-- The daily-reminder document with its stored time advanced to `t`. -/
def docRemDailyAt (t : String) : Doc :=
  [("time", Val.s t), ("names", Val.ls ["alice"]),
   ("content", Val.s "water plants"), ("recurring", Val.s "daily")]

/-- `stDaily` with the stored time advanced to `t`. -/
def stDailyAt (t : String) : Store :=
  { people := { docs := [(1, docAlice)], nextId := 2 },
    tasks := { docs := [], nextId := 1 },
    reminders := { docs := [(1, docRemDailyAt t)], nextId := 2 } }

def docRemCorrupt : Doc :=
  [("time", Val.s "1970-13-40 00:00:00"), ("names", Val.ls ["alice"]),
   ("content", Val.s "corrupt"), ("recurring", Val.s "off")]

def docRemGood : Doc :=
  [("time", Val.s "2024-01-01 09:00:00"), ("names", Val.ls ["alice"]),
   ("content", Val.s "good"), ("recurring", Val.s "off")]

/-- A reminder whose stored time does not re-parse, followed by a healthy
due one-off reminder. -/
def stCorrupt : Store :=
  { people := { docs := [(1, docAlice)], nextId := 2 },
    tasks := { docs := [], nextId := 1 },
    reminders := { docs := [(1, docRemCorrupt), (2, docRemGood)], nextId := 3 } }

/-- A single due one-off reminder. -/
def stGoodOff : Store :=
  { people := { docs := [(1, docAlice)], nextId := 2 },
    tasks := { docs := [], nextId := 1 },
    reminders := { docs := [(1, docRemGood)], nextId := 2 } }

def docRemBoundary : Doc :=
  [("time", Val.s "2024-01-04 10:00:00"), ("names", Val.ls ["alice"]),
   ("content", Val.s "boundary"), ("recurring", Val.s "off")]

/-- A one-off reminder whose fire time equals the poll instant exactly. -/
def stBoundary : Store :=
  { people := { docs := [(1, docAlice)], nextId := 2 },
    tasks := { docs := [], nextId := 1 },
    reminders := { docs := [(1, docRemBoundary)], nextId := 2 } }

/-- Person `alice` alone, with empty task and reminder tables. -/
def stPeople : Store :=
  { people := { docs := [(1, docAlice)], nextId := 2 },
    tasks := { docs := [], nextId := 1 },
    reminders := { docs := [], nextId := 1 } }

/-- Person `alice` with task 1 (deadline 2024-06-01); no reminders. -/
def stTaskOnly : Store :=
  { people := { docs := [(1, docAlice)], nextId := 2 },
    tasks := { docs := [(1, docTaskMilk)], nextId := 2 },
    reminders := { docs := [], nextId := 1 } }

/-- `stCascade` after `remove_task 1`: the task is gone, the linked
reminder document is untouched. -/
def stCascadeTaskGone : Store :=
  { people := { docs := [(1, docAlice)], nextId := 2 },
    tasks := { docs := [], nextId := 2 },
    reminders := { docs := [(1, docRemLinked)], nextId := 2 } }

/-- `stCascade` after `remove_person "Alice"`: person and task are gone,
the reminder document is untouched. -/
def stCascadePersonGone : Store :=
  { people := { docs := [], nextId := 2 },
    tasks := { docs := [], nextId := 2 },
    reminders := { docs := [(1, docRemLinked)], nextId := 2 } }

/-- `stPeople` after adding a whitespace-only task. -/
def stWsTask : Store :=
  { people := { docs := [(1, docAlice)], nextId := 2 },
    tasks := { docs := [(1, [("name", Val.s "alice"), ("content", Val.s " ")])], nextId := 2 },
    reminders := { docs := [], nextId := 1 } }

/-- The hydrated form of `docRemGood`. -/
def remGoodR : Reminder := ⟨1, "2024-01-01 09:00:00", ["alice"], "off", "good", none⟩

/-- The hydrated form of `docRemDaily`. -/
def remDailyR : Reminder := ⟨1, "2024-01-01 10:00:00", ["alice"], "daily", "water plants", none⟩

/-- `stGoodOff` after its one-off reminder fired and was deleted. -/
def stGoodOffGone : Store :=
  { people := { docs := [(1, docAlice)], nextId := 2 },
    tasks := { docs := [], nextId := 1 },
    reminders := { docs := [], nextId := 2 } }

/-! ## Properties of the catch-up loop -/

theorem advanceLoop_exists (now step : Nat) :
    ∀ fuel next, ∃ k, advanceLoop fuel now step next = next + step * k ∧
      ∀ j, j < k → next + step * j < now := by
  intro fuel
  induction fuel with
  | zero =>
    intro next
    exact ⟨0, by simp [advanceLoop], by intro j hj; omega⟩
  | succ f ih =>
    intro next
    by_cases h : next < now
    · obtain ⟨k, hk, hlt⟩ := ih (next + step)
      refine ⟨k + 1, ?_, ?_⟩
      · have harith : next + step + step * k = next + step * (k + 1) := by ring
        simp only [advanceLoop, h, if_true]
        rw [hk, harith]
      · intro j hj
        cases j with
        | zero => simpa using h
        | succ j' =>
          have hj' := hlt j' (by omega)
          have harith : next + step + step * j' = next + step * (j' + 1) := by ring
          omega
    · exact ⟨0, by simp [advanceLoop, h], by intro j hj; omega⟩

theorem advanceLoop_ge (now step : Nat) :
    ∀ fuel next, now - next ≤ fuel * step → now ≤ advanceLoop fuel now step next := by
  intro fuel
  induction fuel with
  | zero =>
    intro next h
    simp only [advanceLoop]
    omega
  | succ f ih =>
    intro next h
    by_cases hlt : next < now
    · simp only [advanceLoop, hlt, if_true]
      apply ih
      have harith : (f + 1) * step = f * step + step := by ring
      rw [harith] at h
      generalize f * step = a at h ⊢
      omega
    · simp only [advanceLoop, hlt, if_false]
      omega

theorem advance_ge (now step next : Nat) (hs : 0 < step) : now ≤ advance now step next := by
  apply advanceLoop_ge now step
  calc now - next = (now - next) * 1 := by ring
  _ ≤ (now - next) * step := Nat.mul_le_mul_left _ hs

theorem advance_exists (now step next : Nat) :
    ∃ k, advance now step next = next + step * k ∧
      ∀ j, j < k → next + step * j < now :=
  advanceLoop_exists now step (now - next) next

/-! ## Association-list and table lemmas -/

theorem find_replace_self (k : String) (v : Val) :
    ∀ l : List (String × Val),
      firstMatch (fun x => x.1 == k) (l.map (fun x => if x.1 == k then (k, v) else x)) =
        (firstMatch (fun x => x.1 == k) l).map (fun _ => (k, v)) := by
  intro l
  induction l with
  | nil => rfl
  | cons a l ih =>
    by_cases h : a.1 = k
    · have hb : (a.1 == k) = true := by simpa using h
      simp [List.map_cons, firstMatch, hb]
    · have hb : (a.1 == k) = false := by simpa using h
      simp only [List.map_cons, firstMatch, hb, if_false, Bool.false_eq_true]
      exact ih

theorem firstMatch_append {α : Type} (p : α → Bool) :
    ∀ l₁ l₂ : List α,
      firstMatch p (l₁ ++ l₂) = (firstMatch p l₁).orElse (fun _ => firstMatch p l₂) := by
  intro l₁ l₂
  induction l₁ with
  | nil => rfl
  | cons a l ih =>
    by_cases h : p a = true
    · simp [firstMatch, h]
    · simp [firstMatch, h, ih]

theorem dget_dset_self (d : Doc) (k : String) (v : Val) :
    dget (dset d k v) k = some v := by
  unfold dget dset
  by_cases h : (firstMatch (fun x => x.1 == k) d).isSome
  · rw [if_pos h, find_replace_self]
    obtain ⟨p, hp⟩ := Option.isSome_iff_exists.mp h
    simp [hp]
  · rw [if_neg h]
    have hn : firstMatch (fun x => x.1 == k) d = none := by
      cases hd : firstMatch (fun x => x.1 == k) d with
      | none => rfl
      | some p => rw [hd] at h; simp at h
    rw [firstMatch_append, hn]
    simp [firstMatch]

theorem find_upd_self (i : Nat) (g : Doc → Doc) :
    ∀ (l : List (Nat × Doc)) (x : Nat × Doc),
      firstMatch (fun y => y.1 == i) l = some x →
      firstMatch (fun y => y.1 == i) (l.map (fun y => if y.1 == i then (y.1, g y.2) else y)) =
        some (x.1, g x.2) := by
  intro l
  induction l with
  | nil => intro x hx; simp [firstMatch] at hx
  | cons a l ih =>
    intro x hx
    by_cases h : a.1 = i
    · have hb : (a.1 == i) = true := by simpa using h
      simp only [firstMatch, hb, if_true] at hx
      cases hx
      simp [List.map_cons, firstMatch, hb]
    · have hb : (a.1 == i) = false := by simpa using h
      simp only [firstMatch, hb, Bool.false_eq_true, if_false] at hx
      simp only [List.map_cons, firstMatch, hb, Bool.false_eq_true, if_false]
      exact ih x hx

theorem find_upd_ne (i j : Nat) (g : Doc → Doc) (hij : i ≠ j) :
    ∀ l : List (Nat × Doc),
      firstMatch (fun y => y.1 == i) (l.map (fun y => if y.1 == j then (y.1, g y.2) else y)) =
        firstMatch (fun y => y.1 == i) l := by
  intro l
  induction l with
  | nil => rfl
  | cons a l ih =>
    by_cases hj : a.1 = j
    · have hbj : (a.1 == j) = true := by simpa using hj
      have hb : (a.1 == i) = false := by simp [hj]; omega
      simp only [List.map_cons, firstMatch, hbj, if_true, hb, Bool.false_eq_true, if_false]
      exact ih
    · have hbj : (a.1 == j) = false := by simpa using hj
      by_cases h : a.1 = i
      · have hb : (a.1 == i) = true := by simpa using h
        simp [List.map_cons, firstMatch, hbj, hb]
      · have hb : (a.1 == i) = false := by simpa using h
        simp only [List.map_cons, firstMatch, hbj, Bool.false_eq_true, if_false, hb]
        exact ih

theorem find_filter_ne (i j : Nat) (hij : i ≠ j) :
    ∀ l : List (Nat × Doc),
      firstMatch (fun y => y.1 == i) (l.filter (fun x => ! [j].contains x.1)) =
        firstMatch (fun y => y.1 == i) l := by
  intro l
  induction l with
  | nil => rfl
  | cons a l ih =>
    by_cases hj : a.1 = j
    · have hc : (! [j].contains a.1) = false := by simp [hj]
      have hb : (a.1 == i) = false := by simp [hj]; omega
      rw [List.filter_cons_of_neg (by simp [hj])]
      rw [ih]
      simp only [firstMatch, hb, Bool.false_eq_true, if_false]
    · have hc : (! [j].contains a.1) = true := by simpa using hj
      rw [List.filter_cons_of_pos (by simp [hj])]
      by_cases h : a.1 = i
      · have hb : (a.1 == i) = true := by simpa using h
        simp [firstMatch, hb]
      · have hb : (a.1 == i) = false := by simpa using h
        simp only [firstMatch, hb, Bool.false_eq_true, if_false]
        exact ih

theorem getById_updateById_self (t : Table) (i : Nat) (k : String) (v : Val) (d : Doc)
    (h : getById t i = some d) :
    getById (updateById t i k v) i = some (dset d k v) := by
  unfold getById at h ⊢
  unfold updateById
  obtain ⟨p, hp, hpd⟩ : ∃ p, firstMatch (fun y => y.1 == i) t.docs = some p ∧ p.2 = d := by
    cases hf : firstMatch (fun y => y.1 == i) t.docs with
    | none => rw [hf] at h; simp at h
    | some p => rw [hf] at h; simp at h; exact ⟨p, rfl, h⟩
  rw [find_upd_self i (fun d2 => dset d2 k v) t.docs p hp]
  simp [hpd]

theorem getById_updateById_ne (t : Table) (i j : Nat) (k : String) (v : Val) (hij : i ≠ j) :
    getById (updateById t j k v) i = getById t i := by
  unfold getById updateById
  rw [find_upd_ne i j (fun d2 => dset d2 k v) hij]

theorem getById_removeIds_ne (t : Table) (i j : Nat) (hij : i ≠ j) :
    getById (removeIds t [j]) i = getById t i := by
  unfold getById removeIds
  rw [find_filter_ne i j hij]


theorem advanceFor_eq (dtNow next0 : DateTime) (rc : String) :
    advanceFor dtNow next0 rc =
      if rc ∈ recurring_options then some (advance (toSec dtNow) (stepOf rc) (toSec next0))
      else none := by
  unfold advanceFor stepOf recurring_options
  by_cases h1 : rc = "daily"
  · simp [h1]
  · by_cases h2 : rc = "weekly"
    · simp [h2]
    · by_cases h3 : rc = "monthly"
      · simp [h3]
      · by_cases h4 : rc = "yearly"
        · simp [h4]
        · simp [h1, h2, h3, h4]

theorem processOne_spec (dtNow : DateTime) (nowStr : String) (st : Store)
    (shown : List Reminder) (r : Reminder) (st2 : Store) (shown2 : List Reminder)
    (h : processOne dtNow nowStr st shown r = Except.ok (st2, shown2)) :
    shown2 = shown ++ contrib dtNow nowStr r ∧
    (strLt r.time nowStr = true → contrib dtNow nowStr r ≠ []) ∧
    (∀ i, i ≠ r.doc_id → getById st2.reminders i = getById st.reminders i) ∧
    (∀ t0 nextSec, strLt r.time nowStr = true → parseDT r.time = some t0 →
      advanceFor dtNow t0 r.recurring = some nextSec →
      ∃ d2, parseDT (strfTime (dtFromSec nextSec)) = some d2 ∧
        st2.reminders = updateById st.reminders r.doc_id "time" (Val.s (strfTime d2))) := by
  unfold processOne at h
  split at h
  case isFalse hdue =>
    injection h with h'
    injection h' with ha hb
    subst ha hb
    refine ⟨by simp [contrib, hdue], ?_, by intro i _; rfl, ?_⟩
    · intro hc; exact absurd hc hdue
    · intro t0 nextSec hc; exact absurd hc hdue
  case isTrue hdue =>
    split at h
    case h_1 e heq => exact absurd h (by simp)
    case h_2 next0 heq =>
      have hp : parseDT r.time = some next0 := by
        unfold datetime_from_string at heq
        cases hpp : parseDT r.time with
        | none => rw [hpp] at heq; exact absurd heq (by simp)
        | some t => rw [hpp] at heq; injection heq with he; rw [he]
      split at h
      case h_1 nextSec hadv =>
        unfold set_new_time datetime_from_string_fmt at h
        cases hq : parseDT (strfTime (dtFromSec nextSec)) with
        | none => rw [hq] at h; exact absurd h (by simp)
        | some d2 =>
          rw [hq] at h
          simp only [strf] at h
          injection h with h'
          injection h' with ha hb
          subst ha hb
          have hc : contrib dtNow nowStr r = [{ r with time := strfTime d2 }] := by
            unfold contrib
            rw [if_pos hdue]
            simp only [hp, hadv, hq]
          refine ⟨by rw [hc], by rw [hc]; simp, ?_, ?_⟩
          · intro i hi
            exact getById_updateById_ne _ _ _ _ _ hi
          · intro t0 ns hdue2 hp2 hadv2
            rw [hp] at hp2
            injection hp2 with he
            subst he
            rw [hadv] at hadv2
            injection hadv2 with he2
            subst he2
            exact ⟨d2, hq, rfl⟩
      case h_2 hadv =>
        unfold remove_reminder reminderFromId at h
        cases hg : getById st.reminders r.doc_id with
        | none =>
          simp only [hg] at h
          injection h with h'
          injection h' with ha hb
          subst ha hb
          have hc : contrib dtNow nowStr r = [r] := by
            unfold contrib
            rw [if_pos hdue]
            simp only [hp, hadv]
          refine ⟨by rw [hc], by rw [hc]; simp, by intro i _; rfl, ?_⟩
          · intro t0 ns hdue2 hp2 hadv2
            rw [hp] at hp2
            injection hp2 with he
            subst he
            rw [hadv] at hadv2
            exact absurd hadv2 (by simp)
        | some d =>
          simp only [hg] at h
          cases hh : hydrateReminder r.doc_id d with
          | none => simp only [hh] at h; exact absurd h (by simp)
          | some rr =>
            simp only [hh] at h
            injection h with h'
            injection h' with ha hb
            subst ha hb
            have hc : contrib dtNow nowStr r = [r] := by
              unfold contrib
              rw [if_pos hdue]
              simp only [hp, hadv]
            refine ⟨by rw [hc], by rw [hc]; simp, ?_, ?_⟩
            · intro i hi
              exact getById_removeIds_ne _ _ _ hi
            · intro t0 ns hdue2 hp2 hadv2
              rw [hp] at hp2
              injection hp2 with he
              subst he
              rw [hadv] at hadv2
              exact absurd hadv2 (by simp)

theorem pollLoop_spec (dtNow : DateTime) (nowStr : String) :
    ∀ (rs : List Reminder) (st : Store) (shown : List Reminder) (st2 : Store)
      (shown2 : List Reminder),
      pollLoop dtNow nowStr rs st shown = Except.ok (st2, shown2) →
      shown2 = shown ++ rs.flatMap (contrib dtNow nowStr) ∧
        ∀ r ∈ rs, strLt r.time nowStr = true → contrib dtNow nowStr r ≠ [] := by
  intro rs
  induction rs with
  | nil =>
    intro st shown st2 shown2 h
    unfold pollLoop at h
    injection h with h'
    injection h' with ha hb
    subst ha hb
    simp
  | cons r rest ih =>
    intro st shown st2 shown2 h
    unfold pollLoop at h
    cases hpo : processOne dtNow nowStr st shown r with
    | error e => rw [hpo] at h; exact absurd h (by simp)
    | ok p =>
      obtain ⟨stm, shm⟩ := p
      rw [hpo] at h
      simp only at h
      obtain ⟨hsh, hne, _, _⟩ := processOne_spec _ _ _ _ _ _ _ hpo
      obtain ⟨h1, h2⟩ := ih stm shm st2 shown2 h
      constructor
      · rw [h1, hsh, List.flatMap_cons, List.append_assoc]
      · intro r' hr' hdue
        rcases List.mem_cons.mp hr' with he | hm
        · subst he; exact hne hdue
        · exact h2 r' hm hdue

theorem pollLoop_preserve (dtNow : DateTime) (nowStr : String) :
    ∀ (rs : List Reminder) (st : Store) (shown : List Reminder) (st2 : Store)
      (shown2 : List Reminder) (i : Nat),
      pollLoop dtNow nowStr rs st shown = Except.ok (st2, shown2) →
      (∀ r ∈ rs, r.doc_id ≠ i) →
      getById st2.reminders i = getById st.reminders i := by
  intro rs
  induction rs with
  | nil =>
    intro st shown st2 shown2 i h _
    unfold pollLoop at h
    injection h with h'
    injection h' with ha hb
    subst ha
    rfl
  | cons r rest ih =>
    intro st shown st2 shown2 i h hni
    unfold pollLoop at h
    cases hpo : processOne dtNow nowStr st shown r with
    | error e => rw [hpo] at h; exact absurd h (by simp)
    | ok p =>
      obtain ⟨stm, shm⟩ := p
      rw [hpo] at h
      simp only at h
      obtain ⟨_, _, hpre, _⟩ := processOne_spec _ _ _ _ _ _ _ hpo
      have hih := ih stm shm st2 shown2 i h (fun r' hr' => hni r' (List.mem_cons_of_mem _ hr'))
      rw [hih]
      exact hpre i (fun he => hni r (List.mem_cons_self _ _) he.symm)

theorem pollLoop_store (dtNow : DateTime) (nowStr : String) :
    ∀ (rs : List Reminder) (st : Store) (shown : List Reminder) (st2 : Store)
      (shown2 : List Reminder) (r : Reminder),
      pollLoop dtNow nowStr rs st shown = Except.ok (st2, shown2) →
      r ∈ rs → (rs.map (fun x => x.doc_id)).Nodup →
      strLt r.time nowStr = true →
      ∀ t0 nextSec, parseDT r.time = some t0 →
        advanceFor dtNow t0 r.recurring = some nextSec →
        ∀ d, getById st.reminders r.doc_id = some d →
        ∃ d2, parseDT (strfTime (dtFromSec nextSec)) = some d2 ∧
          getById st2.reminders r.doc_id = some (dset d "time" (Val.s (strfTime d2))) := by
  intro rs
  induction rs with
  | nil => intro st shown st2 shown2 r _ hmem; exact absurd hmem (by simp)
  | cons a rest ih =>
    intro st shown st2 shown2 r h hmem hnd hdue t0 nextSec hp hadv d hd
    unfold pollLoop at h
    cases hpo : processOne dtNow nowStr st shown a with
    | error e => rw [hpo] at h; exact absurd h (by simp)
    | ok p =>
      obtain ⟨stm, shm⟩ := p
      rw [hpo] at h
      simp only at h
      obtain ⟨_, _, hpre, hupd⟩ := processOne_spec _ _ _ _ _ _ _ hpo
      rw [List.map_cons] at hnd
      have hnotin : a.doc_id ∉ rest.map (fun x => x.doc_id) := (List.nodup_cons.mp hnd).1
      rcases List.mem_cons.mp hmem with he | hm
      · subst he
        obtain ⟨d2, hq, hst⟩ := hupd t0 nextSec hdue hp hadv
        refine ⟨d2, hq, ?_⟩
        have hmid : getById stm.reminders r.doc_id = some (dset d "time" (Val.s (strfTime d2))) := by
          rw [hst]
          exact getById_updateById_self _ _ _ _ _ hd
        have hkeep : getById st2.reminders r.doc_id = getById stm.reminders r.doc_id := by
          apply pollLoop_preserve dtNow nowStr rest stm shm st2 shown2 r.doc_id h
          intro r' hr' heq
          exact hnotin (heq ▸ List.mem_map_of_mem (fun x => x.doc_id) hr')
        rw [hkeep, hmid]
      · have hne : r.doc_id ≠ a.doc_id := by
          intro he
          exact hnotin (he ▸ List.mem_map_of_mem (fun x => x.doc_id) hm)
        have hd' : getById stm.reminders r.doc_id = some d := by
          rw [hpre r.doc_id hne, hd]
        exact ih stm shm st2 shown2 r h hm (List.nodup_cons.mp hnd).2 hdue
          t0 nextSec hp hadv d hd'

theorem hydrateReminder_doc_id (i : Nat) (d : Doc) (r : Reminder)
    (h : hydrateReminder i d = some r) : r.doc_id = i := by
  unfold hydrateReminder at h
  split at h
  · injection h with he
    rw [← he]
  · exact absurd h (by simp)

theorem hydrateDocs_ids :
    ∀ (ds : List (Nat × Doc)) (rs : List Reminder),
      hydrateDocs ds = Except.ok rs →
      rs.map (fun x => x.doc_id) = ds.map (fun x => x.1) := by
  intro ds
  induction ds with
  | nil =>
    intro rs h
    unfold hydrateDocs at h
    injection h with h'
    rw [← h']
    rfl
  | cons x xs ih =>
    intro rs h
    unfold hydrateDocs at h
    cases hh : hydrateReminder x.1 x.2 with
    | none => rw [hh] at h; exact absurd h (by simp)
    | some r =>
      rw [hh] at h
      simp only at h
      cases hrest : hydrateDocs xs with
      | error e => rw [hrest] at h; exact absurd h (by simp)
      | ok rs' =>
        rw [hrest] at h
        simp only at h
        injection h with h'
        rw [← h']
        simp only [List.map_cons]
        rw [hydrateReminder_doc_id x.1 x.2 r hh, ih rs' hrest]

theorem hydrateDocs_mem :
    ∀ (ds : List (Nat × Doc)) (rs : List Reminder),
      hydrateDocs ds = Except.ok rs → ∀ r ∈ rs,
      ∃ d, (r.doc_id, d) ∈ ds ∧ hydrateReminder r.doc_id d = some r := by
  intro ds
  induction ds with
  | nil =>
    intro rs h r hr
    unfold hydrateDocs at h
    injection h with h'
    rw [← h'] at hr
    exact absurd hr (by simp)
  | cons x xs ih =>
    intro rs h r hr
    unfold hydrateDocs at h
    cases hh : hydrateReminder x.1 x.2 with
    | none => rw [hh] at h; exact absurd h (by simp)
    | some r0 =>
      rw [hh] at h
      simp only at h
      cases hrest : hydrateDocs xs with
      | error e => rw [hrest] at h; exact absurd h (by simp)
      | ok rs' =>
        rw [hrest] at h
        simp only at h
        injection h with h'
        rw [← h'] at hr
        rcases List.mem_cons.mp hr with he | hm
        · subst he
          refine ⟨x.2, ?_, ?_⟩
          · rw [hydrateReminder_doc_id x.1 x.2 r hh]
            exact List.mem_cons_self _ _
          · rw [hydrateReminder_doc_id x.1 x.2 r hh]
            exact hh
        · obtain ⟨d, hd1, hd2⟩ := ih rs' hrest r hm
          exact ⟨d, List.mem_cons_of_mem _ hd1, hd2⟩

theorem firstMatch_mem_nodup :
    ∀ (l : List (Nat × Doc)) (i : Nat) (d : Doc),
      (i, d) ∈ l → (l.map (fun x => x.1)).Nodup →
      firstMatch (fun x => x.1 == i) l = some (i, d) := by
  intro l
  induction l with
  | nil => intro i d hm; exact absurd hm (by simp)
  | cons a l ih =>
    intro i d hm hnd
    rcases List.mem_cons.mp hm with he | hm'
    · subst he
      simp [firstMatch]
    · rw [List.map_cons] at hnd
      have hnotin : a.1 ∉ l.map (fun x => x.1) := (List.nodup_cons.mp hnd).1
      have hi : i ∈ l.map (fun x => x.1) := List.mem_map.mpr ⟨(i, d), hm', rfl⟩
      have hne : a.1 ≠ i := fun he => hnotin (he ▸ hi)
      have hb : (a.1 == i) = false := by simpa using hne
      simp only [firstMatch, hb, Bool.false_eq_true, if_false]
      exact ih i d hm' (List.nodup_cons.mp hnd).2

theorem update_reminders_ok (st : Store) (dtNow : DateTime) (shown : List Reminder)
    (st2 : Store) (h : update_reminders st dtNow = Except.ok (shown, st2)) :
    ∃ rs, hydrateAll st.reminders = Except.ok rs ∧
      pollLoop dtNow (strfTime dtNow) rs st [] = Except.ok (st2, shown) := by
  unfold update_reminders at h
  cases hh : hydrateAll st.reminders with
  | error e => rw [hh] at h; exact absurd h (by simp)
  | ok rs =>
    rw [hh] at h
    simp only at h
    cases hp : pollLoop dtNow (strfTime dtNow) rs st [] with
    | error e => rw [hp] at h; exact absurd h (by simp)
    | ok p =>
      obtain ⟨sta, sha⟩ := p
      rw [hp] at h
      simp only at h
      injection h with h'
      injection h' with ha hb
      subst ha hb
      exact ⟨rs, rfl, hp⟩

theorem contrib_doc_id (dtNow : DateTime) (nowStr : String) (r e : Reminder)
    (h : e ∈ contrib dtNow nowStr r) : e.doc_id = r.doc_id := by
  unfold contrib at h
  split at h
  · split at h
    · exact absurd h (by simp)
    · split at h
      · split at h
        · exact absurd h (by simp)
        · rw [List.mem_singleton.mp h]
      · rw [List.mem_singleton.mp h]
  · exact absurd h (by simp)

theorem contrib_due (dtNow : DateTime) (nowStr : String) (r e : Reminder)
    (h : e ∈ contrib dtNow nowStr r) : strLt r.time nowStr = true := by
  unfold contrib at h
  split at h
  · assumption
  · exact absurd h (by simp)

theorem firstMatch_some {α : Type} (p : α → Bool) :
    ∀ (l : List α) (x : α), firstMatch p l = some x → x ∈ l ∧ p x = true := by
  intro l
  induction l with
  | nil => intro x hx; exact absurd hx (by simp [firstMatch])
  | cons a l ih =>
    intro x hx
    by_cases hp : p a = true
    · rw [show firstMatch p (a :: l) = some a from by simp [firstMatch, hp]] at hx
      injection hx with he
      subst he
      exact ⟨List.mem_cons_self _ _, hp⟩
    · have hpa : p a = false := by simpa using hp
      rw [show firstMatch p (a :: l) = firstMatch p l from by simp [firstMatch, hpa]] at hx
      obtain ⟨h1, h2⟩ := ih x hx
      exact ⟨List.mem_cons_of_mem _ h1, h2⟩

theorem firstMatch_eq_none (p : α → Bool) :
    ∀ l : List α, firstMatch p l = none ↔ ∀ x ∈ l, p x = false := by
  intro l
  induction l with
  | nil => simp [firstMatch]
  | cons a l ih =>
    constructor
    · intro h x hx
      by_cases hp : p a = true
      · rw [show firstMatch p (a :: l) = some a from by simp [firstMatch, hp]] at h
        exact absurd h (by simp)
      · have hpa : p a = false := by simpa using hp
        rw [show firstMatch p (a :: l) = firstMatch p l from by simp [firstMatch, hpa]] at h
        rcases List.mem_cons.mp hx with he | hm
        · subst he; exact hpa
        · exact (ih.mp h) x hm
    · intro h
      have hpa : p a = false := h a (List.mem_cons_self _ _)
      rw [show firstMatch p (a :: l) = firstMatch p l from by simp [firstMatch, hpa]]
      exact ih.mpr (fun x hx => h x (List.mem_cons_of_mem _ hx))

theorem getById_insert_fresh (t : Table) (d : Doc) (h : getById t t.nextId = none) :
    getById (insertDoc t d).2 (insertDoc t d).1 = some d := by
  unfold getById at h ⊢
  unfold insertDoc
  simp only
  rw [firstMatch_append]
  have hn : firstMatch (fun x => x.1 == t.nextId) t.docs = none := by
    cases hf : firstMatch (fun x => x.1 == t.nextId) t.docs with
    | none => rfl
    | some p => rw [hf] at h; exact absurd h (by simp)
  rw [hn]
  simp [firstMatch]

theorem update_empty (st : Store) (dtNow : DateTime) (h : st.reminders.docs = []) :
    update_reminders st dtNow = Except.ok ([], st) := by
  unfold update_reminders hydrateAll
  rw [h]
  rfl

theorem pollLoop_alloff (dtNow : DateTime) (nowStr : String) :
    ∀ (rs : List Reminder) (st : Store) (shown : List Reminder),
      (∀ r ∈ rs, strLt r.time nowStr = true ∧ (parseDT r.time).isSome ∧
        r.recurring = "off") →
      (∀ x ∈ st.reminders.docs, (hydrateReminder x.1 x.2).isSome) →
      ∃ ds2, pollLoop dtNow nowStr rs st shown =
          Except.ok (⟨st.people, st.tasks, ⟨ds2, st.reminders.nextId⟩⟩, shown ++ rs) ∧
        ∀ x ∈ ds2, x ∈ st.reminders.docs ∧ x.1 ∉ rs.map (fun r => r.doc_id) := by
  intro rs
  induction rs with
  | nil =>
    intro st shown _ _
    refine ⟨st.reminders.docs, ?_, by simp⟩
    simp [pollLoop]
  | cons r rest ih =>
    intro st shown hall hyd
    obtain ⟨hdue, hps, hoff⟩ := hall r (List.mem_cons_self _ _)
    obtain ⟨t0, hp⟩ := Option.isSome_iff_exists.mp hps
    have hadv : advanceFor dtNow t0 r.recurring = none := by
      rw [hoff]; rfl
    have hds : datetime_from_string r.time = Except.ok t0 := by
      unfold datetime_from_string; rw [hp]
    cases hg : getById st.reminders r.doc_id with
    | none =>
      have hpo : processOne dtNow nowStr st shown r = Except.ok (st, shown ++ [r]) := by
        unfold processOne remove_reminder reminderFromId
        rw [if_pos hdue, hds]
        simp only [hadv, hg]
      obtain ⟨ds2, hpl, hmem⟩ := ih st (shown ++ [r])
        (fun r' hr' => hall r' (List.mem_cons_of_mem _ hr')) hyd
      refine ⟨ds2, ?_, ?_⟩
      · unfold pollLoop
        rw [hpo]
        simp only
        rw [hpl]
        simp
      · intro x hx
        obtain ⟨hx1, hx2⟩ := hmem x hx
        refine ⟨hx1, ?_⟩
        have hnid : (x.1 == r.doc_id) = false := by
          have := (firstMatch_eq_none _ _).mp (by
            cases hf : firstMatch (fun y => y.1 == r.doc_id) st.reminders.docs with
            | none => rfl
            | some p => unfold getById at hg; rw [hf] at hg; exact absurd hg (by simp))
          exact this x hx1
        simp only [List.map_cons, List.mem_cons]
        rintro (he | hm)
        · rw [he] at hnid; simp at hnid
        · exact hx2 hm
    | some d =>
      obtain ⟨p, hp1, hp2⟩ : ∃ p, firstMatch (fun y => y.1 == r.doc_id) st.reminders.docs = some p ∧ p.2 = d := by
        unfold getById at hg
        cases hf : firstMatch (fun y => y.1 == r.doc_id) st.reminders.docs with
        | none => rw [hf] at hg; exact absurd hg (by simp)
        | some p => rw [hf] at hg; simp at hg; exact ⟨p, rfl, hg⟩
      obtain ⟨hpmem, hppred⟩ := firstMatch_some _ _ _ hp1
      have hpid : p.1 = r.doc_id := by simpa using hppred
      have hsome : (hydrateReminder r.doc_id d).isSome := by
        have := hyd p hpmem
        rw [hpid, hp2] at this
        exact this
      obtain ⟨rr, hrr⟩ := Option.isSome_iff_exists.mp hsome
      have hpo : processOne dtNow nowStr st shown r =
          Except.ok ({ st with reminders := removeIds st.reminders [r.doc_id] }, shown ++ [r]) := by
        unfold processOne remove_reminder reminderFromId
        rw [if_pos hdue, hds]
        simp only [hadv, hg, hrr]
      obtain ⟨ds2, hpl, hmem⟩ := ih { st with reminders := removeIds st.reminders [r.doc_id] }
        (shown ++ [r]) (fun r' hr' => hall r' (List.mem_cons_of_mem _ hr'))
        (by
          intro x hx
          have hx' : x ∈ st.reminders.docs := by
            have := List.mem_filter.mp hx
            exact this.1
          exact hyd x hx')
      refine ⟨ds2, ?_, ?_⟩
      · unfold pollLoop
        rw [hpo]
        simp only
        rw [hpl]
        simp [removeIds]
      · intro x hx
        obtain ⟨hx1, hx2⟩ := hmem x hx
        obtain ⟨hx1a, hx1b⟩ := List.mem_filter.mp hx1
        refine ⟨hx1a, ?_⟩
        have hnid : x.1 ≠ r.doc_id := by
          intro he
          rw [he] at hx1b
          simp at hx1b
        simp only [List.map_cons, List.mem_cons]
        rintro (he | hm)
        · exact hnid he
        · exact hx2 hm

theorem hydrateDocs_isSome :
    ∀ (ds : List (Nat × Doc)) (rs : List Reminder),
      hydrateDocs ds = Except.ok rs →
      ∀ x ∈ ds, (hydrateReminder x.1 x.2).isSome := by
  intro ds
  induction ds with
  | nil => intro rs _ x hx; exact absurd hx (by simp)
  | cons a xs ih =>
    intro rs h x hx
    unfold hydrateDocs at h
    cases hh : hydrateReminder a.1 a.2 with
    | none => rw [hh] at h; exact absurd h (by simp)
    | some r =>
      rw [hh] at h
      simp only at h
      cases hrest : hydrateDocs xs with
      | error e => rw [hrest] at h; exact absurd h (by simp)
      | ok rs' =>
        rcases List.mem_cons.mp hx with he | hm
        · subst he; rw [hh]; rfl
        · exact ih rs' hrest x hm

theorem append_ne_empty_right (s t : String) (h : t ≠ "") : s ++ t ≠ "" := by
  intro he
  apply h
  have hd := congrArg String.data he
  rw [String.data_append] at hd
  have : t.data = [] := (List.append_eq_nil.mp hd).2
  cases t with
  | mk l => cases this; rfl

theorem checkNames_ok (st : Store) :
    ∀ names, (∀ n ∈ names, ∃ p, personFromName st n = Except.ok (some p)) →
      checkNames st names = Except.ok () := by
  intro names
  induction names with
  | nil => intro _; rfl
  | cons n rest ih =>
    intro h
    obtain ⟨p, hp⟩ := h n (List.mem_cons_self _ _)
    unfold checkNames
    rw [hp]
    simp only
    rw [if_neg (by simp)]
    exact ih (fun n' hn' => h n' (List.mem_cons_of_mem _ hn'))

/-- C6 (confirmed): for a store whose persisted Reminders are all due
(stored time strictly below the canonical `now` string), re-parsable and
non-recurring (`recurrence = "off"`), `poll(now)` returns exactly the
hydrated reminders and deletes them, leaving the reminder table empty, and
a second `poll(now)` at the same instant returns the empty sequence and
changes nothing: repeated polling at a fixed `now` is idempotent for
one-off reminders. -/
theorem C6_oneoff_poll_idempotent (st : Store) (dtNow : DateTime) (rs : List Reminder)
    (hhyd : hydrateAll st.reminders = Except.ok rs)
    (hall : ∀ r ∈ rs, strLt r.time (strfTime dtNow) = true ∧
      (parseDT r.time).isSome ∧ r.recurring = "off") :
    ∃ st2, update_reminders st dtNow = Except.ok (rs, st2) ∧
      st2.reminders.docs = [] ∧
      update_reminders st2 dtNow = Except.ok ([], st2) := by
  have hyd : ∀ x ∈ st.reminders.docs, (hydrateReminder x.1 x.2).isSome :=
    hydrateDocs_isSome _ _ hhyd
  obtain ⟨ds2, hpl, hmem⟩ := pollLoop_alloff dtNow (strfTime dtNow) rs st [] hall hyd
  have hids : rs.map (fun x => x.doc_id) = st.reminders.docs.map (fun x => x.1) :=
    hydrateDocs_ids _ _ hhyd
  have hds2 : ds2 = [] := by
    rw [List.eq_nil_iff_forall_not_mem]
    intro x hx
    obtain ⟨hx1, hx2⟩ := hmem x hx
    apply hx2
    rw [hids]
    exact List.mem_map.mpr ⟨x, hx1, rfl⟩
  subst hds2
  refine ⟨⟨st.people, st.tasks, ⟨[], st.reminders.nextId⟩⟩, ?_, rfl, ?_⟩
  · unfold update_reminders
    rw [hhyd]
    simp only
    rw [hpl]
    simp
  · exact update_empty _ _ rfl

/-- C8 (corrected): a persisted Reminder is reported due by `poll(now)`
exactly when its stored fire time compares strictly below `now`'s canonical
string — not "at or before": a reminder whose fire time equals `now`'s
canonical form is not due (see the counterexample theorem). -/
theorem C8_due_iff_strictly_before (st : Store) (dtNow : DateTime)
    (shown rs : List Reminder) (st2 : Store) (r : Reminder)
    (hup : update_reminders st dtNow = Except.ok (shown, st2))
    (hhyd : hydrateAll st.reminders = Except.ok rs)
    (hmem : r ∈ rs)
    (hnd : (rs.map (fun x => x.doc_id)).Nodup) :
    (∃ e ∈ shown, e.doc_id = r.doc_id) ↔ strLt r.time (strfTime dtNow) = true := by
  obtain ⟨rs', hh', hpl⟩ := update_reminders_ok _ _ _ _ hup
  rw [hhyd] at hh'
  injection hh' with he
  subst he
  obtain ⟨hsh, hdue⟩ := pollLoop_spec _ _ _ _ _ _ _ hpl
  rw [List.nil_append] at hsh
  constructor
  · rintro ⟨e, he, hed⟩
    rw [hsh] at he
    obtain ⟨r2, hr2, her2⟩ := List.mem_flatMap.mp he
    have hid2 : e.doc_id = r2.doc_id := contrib_doc_id _ _ _ _ her2
    have hr2r : r2 = r := by
      apply List.inj_on_of_nodup_map hnd hr2 hmem
      rw [← hid2, hed]
    rw [← hr2r]
    exact contrib_due _ _ _ _ her2
  · intro hdue'
    have hcne := hdue r hmem hdue'
    obtain ⟨e, he⟩ := List.exists_mem_of_ne_nil _ hcne
    refine ⟨e, ?_, contrib_doc_id _ _ _ _ he⟩
    rw [hsh]
    exact List.mem_flatMap.mpr ⟨r, hmem, he⟩

theorem poll_recurring_result (st : Store) (dtNow : DateTime)
    (shown rs : List Reminder) (st2 : Store) (r : Reminder) (t0 : DateTime) (nextSec : Nat)
    (hup : update_reminders st dtNow = Except.ok (shown, st2))
    (hhyd : hydrateAll st.reminders = Except.ok rs)
    (hmem : r ∈ rs)
    (hnd : (st.reminders.docs.map (fun x => x.1)).Nodup)
    (hdue : strLt r.time (strfTime dtNow) = true)
    (hp : parseDT r.time = some t0)
    (hadv : advanceFor dtNow t0 r.recurring = some nextSec)
    (hround : parseDT (strfTime (dtFromSec nextSec)) = some (dtFromSec nextSec)) :
    { r with time := strfTime (dtFromSec nextSec) } ∈ shown ∧
    (∀ e ∈ shown, e.doc_id = r.doc_id → e = { r with time := strfTime (dtFromSec nextSec) }) ∧
    ∃ d, getById st2.reminders r.doc_id = some d ∧
      dget d "time" = some (Val.s (strfTime (dtFromSec nextSec))) := by
  obtain ⟨rs', hh', hpl⟩ := update_reminders_ok _ _ _ _ hup
  rw [hhyd] at hh'
  injection hh' with he
  subst he
  have hids : rs.map (fun x => x.doc_id) = st.reminders.docs.map (fun x => x.1) :=
    hydrateDocs_ids _ _ hhyd
  have hndr : (rs.map (fun x => x.doc_id)).Nodup := by rw [hids]; exact hnd
  obtain ⟨d0, hd0mem, _⟩ := hydrateDocs_mem _ _ hhyd r hmem
  have hget : getById st.reminders r.doc_id = some d0 := by
    unfold getById
    rw [firstMatch_mem_nodup _ _ _ hd0mem hnd]
    rfl
  have hcontrib : contrib dtNow (strfTime dtNow) r =
      [{ r with time := strfTime (dtFromSec nextSec) }] := by
    unfold contrib
    rw [if_pos hdue]
    simp only [hp, hadv, hround]
  obtain ⟨hsh, _⟩ := pollLoop_spec _ _ _ _ _ _ _ hpl
  rw [List.nil_append] at hsh
  refine ⟨?_, ?_, ?_⟩
  · rw [hsh]
    exact List.mem_flatMap.mpr ⟨r, hmem, by rw [hcontrib]; exact List.mem_singleton.mpr rfl⟩
  · intro e hein hed
    rw [hsh] at hein
    obtain ⟨r2, hr2, her2⟩ := List.mem_flatMap.mp hein
    have hid2 : e.doc_id = r2.doc_id := contrib_doc_id _ _ _ _ her2
    have hr2r : r2 = r := by
      apply List.inj_on_of_nodup_map hndr hr2 hmem
      rw [← hid2, hed]
    rw [hr2r, hcontrib] at her2
    exact List.mem_singleton.mp her2
  · obtain ⟨d2, hq, hstored⟩ := pollLoop_store dtNow (strfTime dtNow) rs st [] st2 shown r
      hpl hmem hndr hdue t0 nextSec hp hadv d0 hget
    rw [hround] at hq
    injection hq with hq'
    refine ⟨dset d0 "time" (Val.s (strfTime (dtFromSec nextSec))), ?_, ?_⟩
    · rw [hstored, hq']
    · exact dget_dset_self _ _ _

/-- C7 (corrected): after `poll(now)`, a due daily Reminder's stored fire
time is the canonical rendering of the smallest daily increment of the
original fire time that is greater than **or equal to** `now` (the loop
runs `while next < now`), not the smallest increment strictly greater than
`now` as claimed: when an increment lands exactly on `now` it is kept (see
the counterexample theorem). -/
theorem C7_daily_advance_to_least_ge_now (st : Store) (dtNow : DateTime)
    (shown rs : List Reminder) (st2 : Store) (r : Reminder) (t0 : DateTime)
    (hup : update_reminders st dtNow = Except.ok (shown, st2))
    (hhyd : hydrateAll st.reminders = Except.ok rs)
    (hmem : r ∈ rs)
    (hnd : (st.reminders.docs.map (fun x => x.1)).Nodup)
    (hdue : strLt r.time (strfTime dtNow) = true)
    (hdaily : r.recurring = "daily")
    (hp : parseDT r.time = some t0)
    (hround : parseDT (strfTime (dtFromSec (advance (toSec dtNow) 86400 (toSec t0)))) =
      some (dtFromSec (advance (toSec dtNow) 86400 (toSec t0)))) :
    ∃ k d, getById st2.reminders r.doc_id = some d ∧
      dget d "time" = some (Val.s (strfTime (dtFromSec (toSec t0 + 86400 * k)))) ∧
      toSec dtNow ≤ toSec t0 + 86400 * k ∧
      ∀ j, j < k → toSec t0 + 86400 * j < toSec dtNow := by
  have hadv : advanceFor dtNow t0 r.recurring =
      some (advance (toSec dtNow) 86400 (toSec t0)) := by
    rw [hdaily]
    rfl
  obtain ⟨_, _, hstore⟩ := poll_recurring_result st dtNow shown rs st2 r t0
    (advance (toSec dtNow) 86400 (toSec t0)) hup hhyd hmem hnd hdue hp hadv hround
  obtain ⟨d, hgd, hdt⟩ := hstore
  obtain ⟨k, hk, hmin⟩ := advance_exists (toSec dtNow) 86400 (toSec t0)
  refine ⟨k, d, hgd, ?_, ?_, hmin⟩
  · rw [← hk]
    exact hdt
  · rw [← hk]
    exact advance_ge _ _ _ (by omega)

/-- C9 (corrected): `add_task` fails with the empty-task error exactly for
the empty string — the check is Python truthiness (`if not content`), so
whitespace-only content is accepted and a Task document is inserted (see
the counterexample theorem). -/
theorem C9_task_rejected_only_when_empty (st : Store) (p : Person) (content deadline : String) :
    (content = "" → add_task st p content deadline = Except.error (Err.todo emptyTaskMsg)) ∧
    (content ≠ "" → deadline = "" → getById st.tasks st.tasks.nextId = none →
      add_task st p content deadline =
        Except.ok (some ⟨st.tasks.nextId, p.name, content, none⟩,
          { st with tasks :=
            (insertDoc st.tasks [("name", Val.s p.name), ("content", Val.s content)]).2 })) := by
  constructor
  · intro he
    subst he
    rfl
  · intro hne hdl hfresh
    subst hdl
    unfold add_task
    rw [if_neg hne]
    rw [if_neg (by simp)]
    have hins : getById (insertDoc st.tasks [("name", Val.s p.name), ("content", Val.s content)]).2
        (insertDoc st.tasks [("name", Val.s p.name), ("content", Val.s content)]).1 =
        some [("name", Val.s p.name), ("content", Val.s content)] :=
      getById_insert_fresh _ _ hfresh
    unfold taskFromId
    simp only [insertDoc] at hins ⊢
    rw [hins]
    simp [hydrateTask, dget, firstMatch]

/-- C10 (confirmed): a Reminder created with a linked task id, no explicit
time and no explicit content, where the linked Task exists and has a
deadline, gets `fire_time = "<deadline> 10:00:00"` in canonical form, the
Task's content as its content, and the Task owner's normalized name
included in (prepended to, when absent) its recipient names. -/
theorem C10_linked_task_inference (st : Store) (tid : Nat) (task : Task)
    (names0 : List String) (dl : String) (dtv : DateTime)
    (htask : taskFromId st tid = Except.ok (some task))
    (hdl : task.deadline = some dl)
    (hcontent : task.content ≠ "")
    (hpar : parseDT (dl ++ " 10:00") = some dtv)
    (hfmt : strfTime dtv = dl ++ " 10:00:00")
    (hnames : ∀ n ∈ (if task.name ∈ (names0.filter (fun s => s ≠ "")).map format_name
        then (names0.filter (fun s => s ≠ "")).map format_name
        else task.name :: (names0.filter (fun s => s ≠ "")).map format_name),
      ∃ p, personFromName st n = Except.ok (some p))
    (hfresh : getById st.reminders st.reminders.nextId = none) :
    ∃ r st2, new_reminder st "" names0 "" "" (some tid) = Except.ok (some r, st2) ∧
      r.time = dl ++ " 10:00:00" ∧
      r.content = task.content ∧
      r.names = (if task.name ∈ (names0.filter (fun s => s ≠ "")).map format_name
        then (names0.filter (fun s => s ≠ "")).map format_name
        else task.name :: (names0.filter (fun s => s ≠ "")).map format_name) ∧
      task.name ∈ r.names ∧
      r.recurring = "off" ∧
      r.task_id = some tid := by
  have htne : (dl ++ " 10:00") ≠ "" := append_ne_empty_right _ _ (by decide)
  have htne2 : (dl ++ " 10:00:00") ≠ "" := append_ne_empty_right _ _ (by decide)
  have hchk : checkNames st (if task.name ∈ (names0.filter (fun s => s ≠ "")).map format_name
      then (names0.filter (fun s => s ≠ "")).map format_name
      else task.name :: (names0.filter (fun s => s ≠ "")).map format_name) = Except.ok () :=
    checkNames_ok st _ hnames
  have hmemfin : task.name ∈ (if task.name ∈ (names0.filter (fun s => s ≠ "")).map format_name
      then (names0.filter (fun s => s ≠ "")).map format_name
      else task.name :: (names0.filter (fun s => s ≠ "")).map format_name) := by
    by_cases hm : task.name ∈ (names0.filter (fun s => s ≠ "")).map format_name
    · rw [if_pos hm]; exact hm
    · rw [if_neg hm]; exact List.mem_cons_self _ _
  have hnamesne : (if task.name ∈ (names0.filter (fun s => s ≠ "")).map format_name
      then (names0.filter (fun s => s ≠ "")).map format_name
      else task.name :: (names0.filter (fun s => s ≠ "")).map format_name) ≠ [] := by
    intro he
    rw [he] at hmemfin
    exact absurd hmemfin (by simp)
  have hdsf : datetime_from_string_fmt (dl ++ " 10:00") Fmt.time =
      Except.ok (dl ++ " 10:00:00") := by
    unfold datetime_from_string_fmt
    rw [hpar]
    simp only [strf]
    rw [hfmt]
  have key : new_reminder st "" names0 "" "" (some tid) =
      Except.ok (some ⟨st.reminders.nextId, dl ++ " 10:00:00",
        (if task.name ∈ (names0.filter (fun s => s ≠ "")).map format_name
          then (names0.filter (fun s => s ≠ "")).map format_name
          else task.name :: (names0.filter (fun s => s ≠ "")).map format_name),
        "off", task.content, some tid⟩,
        { st with reminders := (insertDoc st.reminders
          ([("time", Val.s (dl ++ " 10:00:00")),
            ("names", Val.ls (if task.name ∈ (names0.filter (fun s => s ≠ "")).map format_name
              then (names0.filter (fun s => s ≠ "")).map format_name
              else task.name :: (names0.filter (fun s => s ≠ "")).map format_name)),
            ("content", Val.s task.content), ("recurring", Val.s "off")] ++
            [("task_id", Val.i tid)])).2 }) := ?_
  case _ => exact ⟨_, _, key, rfl, rfl, rfl, hmemfin, rfl, rfl⟩
  simp only [new_reminder, htask, hdl, if_true]
  rw [if_pos htne]
  rw [hdsf]
  simp only
  rw [hchk]
  simp only
  rw [if_neg (show ¬ ("" : String) ≠ "" by simp)]
  simp only
  rw [if_neg (not_not_intro ⟨htne2, hnamesne, hcontent⟩)]
  unfold reminderFromId
  simp only [insertDoc]
  have hins := getById_insert_fresh st.reminders
    ([("time", Val.s (dl ++ " 10:00:00")),
      ("names", Val.ls (if task.name ∈ (names0.filter (fun s => s ≠ "")).map format_name
        then (names0.filter (fun s => s ≠ "")).map format_name
        else task.name :: (names0.filter (fun s => s ≠ "")).map format_name)),
      ("content", Val.s task.content), ("recurring", Val.s "off")] ++ [("task_id", Val.i tid)]) hfresh
  simp only [insertDoc] at hins
  rw [hins]
  simp [hydrateReminder, dget, firstMatch]

/-- C4 (corrected): the Reminder object placed in the due list for a due
recurring reminder is not the pre-advance snapshot: the loop appends the
live object and `set_new_time` then mutates it, so the returned entry
carries the newly persisted advanced fire time — the entry equals the
hydrated reminder with its `time` replaced by the advanced canonical
string, identical to what the store now holds for that id. -/
theorem C4_due_list_shows_advanced_time (st : Store) (dtNow : DateTime)
    (shown rs : List Reminder) (st2 : Store) (r : Reminder) (t0 : DateTime) (nextSec : Nat)
    (hup : update_reminders st dtNow = Except.ok (shown, st2))
    (hhyd : hydrateAll st.reminders = Except.ok rs)
    (hmem : r ∈ rs)
    (hnd : (st.reminders.docs.map (fun x => x.1)).Nodup)
    (hdue : strLt r.time (strfTime dtNow) = true)
    (hp : parseDT r.time = some t0)
    (hadv : advanceFor dtNow t0 r.recurring = some nextSec)
    (hround : parseDT (strfTime (dtFromSec nextSec)) = some (dtFromSec nextSec)) :
    { r with time := strfTime (dtFromSec nextSec) } ∈ shown ∧
    (∀ e ∈ shown, e.doc_id = r.doc_id → e = { r with time := strfTime (dtFromSec nextSec) }) ∧
    ∃ d, getById st2.reminders r.doc_id = some d ∧
      dget d "time" = some (Val.s (strfTime (dtFromSec nextSec))) :=
  poll_recurring_result st dtNow shown rs st2 r t0 nextSec hup hhyd hmem hnd hdue hp hadv hround

set_option maxRecDepth 4000 in
/-- C1 (code bug): at poll instant 2024-01-16 12:00:00, a monthly reminder
due at 2024-01-15 10:00:00 and a yearly one due at 2023-01-15 10:00:00 are
both persisted with fire time 2024-01-17 10:00:00 — the loop adds one day
per iteration for `monthly` and `yearly`, not one calendar month or year
(which would give 2024-02-15 10:00:00 resp. 2025-01-15 10:00:00). -/
theorem C1_monthly_yearly_advance_one_day :
    update_reminders stMY ⟨2024, 1, 16, 12, 0, 0⟩ =
      Except.ok ([⟨1, "2024-01-17 10:00:00", ["alice"], "monthly", "pay rent", none⟩,
                  ⟨2, "2024-01-17 10:00:00", ["alice"], "yearly", "renew lease", none⟩], stMYAfter) ∧
    ("2024-01-17 10:00:00" ≠ "2024-02-15 10:00:00" ∧
     "2024-01-17 10:00:00" ≠ "2025-01-15 10:00:00") :=
  ⟨rfl, by decide⟩

/-- C2 (code bug): `remove_task 1` deletes task 1 and returns it, but the
reminder whose `task_id` field equals 1 survives, because the removal
query tests the field `task`, which no reminder document has: afterwards
`Reminder.from_id 1` still finds the linked reminder. -/
theorem C2_remove_task_leaves_linked_reminder :
    remove_task stCascade 1 =
      Except.ok (some ⟨1, "alice", "buy milk", some "2024-06-01"⟩, stCascadeTaskGone) ∧
    dget docRemLinked "task_id" = some (Val.i 1) ∧
    reminderFromId stCascadeTaskGone 1 =
      Except.ok (some ⟨1, "2024-06-01 10:00:00", ["alice"], "off", "buy milk", some 1⟩) :=
  ⟨rfl, rfl, rfl⟩

/-- C3 (code bug): `remove_person "Alice"` deletes the person and her task,
but the reminder linked to that task survives — the removal queries test
the field `name` on reminder documents (which have `names`) and the field
`task` (reminders store `task_id`), so the cascade never reaches the
reminders table: afterwards the task lookup is a not-found but the
reminder lookup still succeeds. -/
theorem C3_remove_person_leaves_reminder :
    remove_person stCascade "Alice" = Except.ok stCascadePersonGone ∧
    taskFromId stCascadePersonGone 1 = Except.ok none ∧
    reminderFromId stCascadePersonGone 1 =
      Except.ok (some ⟨1, "2024-06-01 10:00:00", ["alice"], "off", "buy milk", some 1⟩) :=
  ⟨rfl, rfl, rfl⟩

/-- C5 (code bug): a stored fire time that fails to re-parse aborts the
whole polling cycle — `update_reminders` propagates the `ToDoException`
raised while advancing the corrupt record and returns nothing, although
the second reminder of the store is due (its time is strictly below the
canonical `now`) and would otherwise have been returned. -/
theorem C5_parse_failure_aborts_poll :
    update_reminders stCorrupt ⟨2024, 1, 4, 10, 0, 0⟩ =
      Except.error (Err.todo (parseErrMsg "1970-13-40 00:00:00")) ∧
    strLt "2024-01-01 09:00:00" (strfTime ⟨2024, 1, 4, 10, 0, 0⟩) = true :=
  ⟨rfl, rfl⟩

/-- C4 counterexample: polling the daily reminder due at
2024-01-01 10:00:00 at instant 2024-01-04 12:00:00 returns a due list
whose only entry carries fire time 2024-01-05 10:00:00 — the advanced,
persisted value — while the stored pre-advance fire time was
2024-01-01 10:00:00, so the returned Reminder is not the original
pre-advance snapshot. -/
theorem C4_counterexample_original_time_not_shown :
    update_reminders stDaily ⟨2024, 1, 4, 12, 0, 0⟩ =
      Except.ok ([⟨1, "2024-01-05 10:00:00", ["alice"], "daily", "water plants", none⟩],
                 stDailyAt "2024-01-05 10:00:00") ∧
    dget docRemDaily "time" = some (Val.s "2024-01-01 10:00:00") ∧
    "2024-01-05 10:00:00" ≠ "2024-01-01 10:00:00" :=
  ⟨rfl, rfl, by decide⟩

/-- C7 counterexample: polling the daily reminder due at
2024-01-01 10:00:00 at instant 2024-01-04 10:00:00 — exactly three daily
periods later — stores fire time 2024-01-04 10:00:00, which equals `now`
and is not strictly greater than it; the smallest daily increment strictly
greater than `now` would be 2024-01-05 10:00:00. -/
theorem C7_counterexample_boundary_not_strictly_greater :
    update_reminders stDaily ⟨2024, 1, 4, 10, 0, 0⟩ =
      Except.ok ([⟨1, "2024-01-04 10:00:00", ["alice"], "daily", "water plants", none⟩],
                 stDailyAt "2024-01-04 10:00:00") ∧
    strfTime ⟨2024, 1, 4, 10, 0, 0⟩ = "2024-01-04 10:00:00" ∧
    strLt (strfTime ⟨2024, 1, 4, 10, 0, 0⟩) "2024-01-04 10:00:00" = false ∧
    "2024-01-04 10:00:00" ≠ "2024-01-05 10:00:00" :=
  ⟨rfl, rfl, rfl, by decide⟩

/-- C8 counterexample: a one-off reminder whose stored fire time equals
`now`'s canonical form exactly is not returned by the poll and stays in
the store — equality is not "due" under the strict string comparison. -/
theorem C8_counterexample_equal_time_not_due :
    update_reminders stBoundary ⟨2024, 1, 4, 10, 0, 0⟩ = Except.ok ([], stBoundary) ∧
    dget docRemBoundary "time" = some (Val.s (strfTime ⟨2024, 1, 4, 10, 0, 0⟩)) :=
  ⟨rfl, rfl⟩

/-- C9 counterexample: a whitespace-only content string is truthy in
Python, so `add_task` accepts it and inserts a Task whose content is a
single space, although the claim demands failure for whitespace-only
content. -/
theorem C9_counterexample_whitespace_content_accepted :
    add_task stPeople aliceP " " "" = Except.ok (some ⟨1, "alice", " ", none⟩, stWsTask) ∧
    (" " : String) ≠ "" ∧
    (" " : String).data.all isWs = true :=
  ⟨rfl, by decide, rfl⟩

/-- Witness for C4: the general theorem applied to the daily-reminder
store at instant 2024-01-04 12:00:00, every hypothesis discharged by
computation. -/
theorem C4_due_list_shows_advanced_time_witness :
    update_reminders stDaily ⟨2024, 1, 4, 12, 0, 0⟩ =
      Except.ok ([⟨1, "2024-01-05 10:00:00", ["alice"], "daily", "water plants", none⟩],
        stDailyAt "2024-01-05 10:00:00") ∧
    hydrateAll stDaily.reminders = Except.ok [remDailyR] ∧
    remDailyR ∈ [remDailyR] ∧
    (stDaily.reminders.docs.map (fun x => x.1)).Nodup ∧
    strLt remDailyR.time (strfTime ⟨2024, 1, 4, 12, 0, 0⟩) = true ∧
    parseDT remDailyR.time = some ⟨2024, 1, 1, 10, 0, 0⟩ ∧
    advanceFor ⟨2024, 1, 4, 12, 0, 0⟩ ⟨2024, 1, 1, 10, 0, 0⟩ remDailyR.recurring =
      some (toSec ⟨2024, 1, 5, 10, 0, 0⟩) ∧
    ((⟨1, "2024-01-05 10:00:00", ["alice"], "daily", "water plants", none⟩ : Reminder) ∈
        [(⟨1, "2024-01-05 10:00:00", ["alice"], "daily", "water plants", none⟩ : Reminder)] ∧
      (∀ e ∈ [(⟨1, "2024-01-05 10:00:00", ["alice"], "daily", "water plants", none⟩ : Reminder)],
        e.doc_id = remDailyR.doc_id →
        e = ⟨1, "2024-01-05 10:00:00", ["alice"], "daily", "water plants", none⟩) ∧
      ∃ d, getById (stDailyAt "2024-01-05 10:00:00").reminders remDailyR.doc_id = some d ∧
        dget d "time" = some (Val.s "2024-01-05 10:00:00")) :=
  ⟨rfl, rfl, by decide, by decide, rfl, rfl, rfl,
    C4_due_list_shows_advanced_time stDaily ⟨2024, 1, 4, 12, 0, 0⟩
      [⟨1, "2024-01-05 10:00:00", ["alice"], "daily", "water plants", none⟩]
      [remDailyR] (stDailyAt "2024-01-05 10:00:00") remDailyR
      ⟨2024, 1, 1, 10, 0, 0⟩ (toSec ⟨2024, 1, 5, 10, 0, 0⟩)
      rfl rfl (by decide) (by decide) rfl rfl rfl rfl⟩

/-- Witness for C6: the general theorem applied to the store holding one
due one-off reminder. -/
theorem C6_oneoff_poll_idempotent_witness :
    hydrateAll stGoodOff.reminders = Except.ok [remGoodR] ∧
    (∀ r ∈ [remGoodR], strLt r.time (strfTime ⟨2024, 1, 4, 10, 0, 0⟩) = true ∧
      (parseDT r.time).isSome ∧ r.recurring = "off") ∧
    ∃ st2, update_reminders stGoodOff ⟨2024, 1, 4, 10, 0, 0⟩ = Except.ok ([remGoodR], st2) ∧
      st2.reminders.docs = [] ∧
      update_reminders st2 ⟨2024, 1, 4, 10, 0, 0⟩ = Except.ok ([], st2) :=
  ⟨rfl, by decide,
    C6_oneoff_poll_idempotent stGoodOff ⟨2024, 1, 4, 10, 0, 0⟩ [remGoodR] rfl (by decide)⟩

/-- Witness for C7: the general theorem applied to the daily reminder
three days and two hours in the past. -/
theorem C7_daily_advance_to_least_ge_now_witness :
    update_reminders stDaily ⟨2024, 1, 4, 12, 0, 0⟩ =
      Except.ok ([⟨1, "2024-01-05 10:00:00", ["alice"], "daily", "water plants", none⟩],
        stDailyAt "2024-01-05 10:00:00") ∧
    hydrateAll stDaily.reminders = Except.ok [remDailyR] ∧
    remDailyR ∈ [remDailyR] ∧
    (stDaily.reminders.docs.map (fun x => x.1)).Nodup ∧
    strLt remDailyR.time (strfTime ⟨2024, 1, 4, 12, 0, 0⟩) = true ∧
    remDailyR.recurring = "daily" ∧
    parseDT remDailyR.time = some ⟨2024, 1, 1, 10, 0, 0⟩ ∧
    ∃ k d, getById (stDailyAt "2024-01-05 10:00:00").reminders remDailyR.doc_id = some d ∧
      dget d "time" =
        some (Val.s (strfTime (dtFromSec (toSec ⟨2024, 1, 1, 10, 0, 0⟩ + 86400 * k)))) ∧
      toSec ⟨2024, 1, 4, 12, 0, 0⟩ ≤ toSec ⟨2024, 1, 1, 10, 0, 0⟩ + 86400 * k ∧
      ∀ j, j < k → toSec ⟨2024, 1, 1, 10, 0, 0⟩ + 86400 * j < toSec ⟨2024, 1, 4, 12, 0, 0⟩ :=
  ⟨rfl, rfl, by decide, by decide, rfl, rfl, rfl,
    C7_daily_advance_to_least_ge_now stDaily ⟨2024, 1, 4, 12, 0, 0⟩
      [⟨1, "2024-01-05 10:00:00", ["alice"], "daily", "water plants", none⟩]
      [remDailyR] (stDailyAt "2024-01-05 10:00:00") remDailyR ⟨2024, 1, 1, 10, 0, 0⟩
      rfl rfl (by decide) (by decide) rfl rfl rfl rfl⟩

/-- Witness for C8: the general theorem applied to the store holding one
due one-off reminder; both directions of the instantiated equivalence. -/
theorem C8_due_iff_strictly_before_witness :
    update_reminders stGoodOff ⟨2024, 1, 4, 10, 0, 0⟩ = Except.ok ([remGoodR], stGoodOffGone) ∧
    hydrateAll stGoodOff.reminders = Except.ok [remGoodR] ∧
    remGoodR ∈ [remGoodR] ∧
    ([remGoodR].map (fun x => x.doc_id)).Nodup ∧
    ((∃ e ∈ [remGoodR], e.doc_id = remGoodR.doc_id) ↔
      strLt remGoodR.time (strfTime ⟨2024, 1, 4, 10, 0, 0⟩) = true) :=
  ⟨rfl, rfl, by decide, by decide,
    C8_due_iff_strictly_before stGoodOff ⟨2024, 1, 4, 10, 0, 0⟩ [remGoodR] [remGoodR]
      stGoodOffGone remGoodR rfl rfl (by decide) (by decide)⟩

/-- Witness for C9: the general theorem applied to the empty content and
to a non-empty content, at a concrete store. -/
theorem C9_task_rejected_only_when_empty_witness :
    add_task stPeople aliceP "" "" = Except.error (Err.todo emptyTaskMsg) ∧
    add_task stPeople aliceP "buy bread" "" =
      Except.ok (some ⟨1, "alice", "buy bread", none⟩,
        { stPeople with tasks :=
          (insertDoc stPeople.tasks [("name", Val.s "alice"), ("content", Val.s "buy bread")]).2 }) :=
  ⟨(C9_task_rejected_only_when_empty stPeople aliceP "" "").1 rfl,
   (C9_task_rejected_only_when_empty stPeople aliceP "buy bread" "").2 (by decide) rfl rfl⟩

/-- Witness for C10: the general theorem applied to the store holding
person `alice` and task 1 with deadline 2024-06-01. -/
theorem C10_linked_task_inference_witness :
    taskFromId stTaskOnly 1 = Except.ok (some ⟨1, "alice", "buy milk", some "2024-06-01"⟩) ∧
    (∀ n ∈ (["alice"] : List String), ∃ p, personFromName stTaskOnly n = Except.ok (some p)) ∧
    getById stTaskOnly.reminders stTaskOnly.reminders.nextId = none ∧
    ∃ r st2, new_reminder stTaskOnly "" [] "" "" (some 1) = Except.ok (some r, st2) ∧
      r.time = "2024-06-01" ++ " 10:00:00" ∧
      r.content = "buy milk" ∧
      r.names = ["alice"] ∧
      ("alice" : String) ∈ r.names ∧
      r.recurring = "off" ∧
      r.task_id = some 1 :=
  ⟨rfl,
   fun n hn => by
     simp at hn
     subst hn
     exact ⟨⟨1, "alice", "Alice", "111"⟩, rfl⟩,
   rfl,
   C10_linked_task_inference stTaskOnly 1 ⟨1, "alice", "buy milk", some "2024-06-01"⟩ []
     "2024-06-01" ⟨2024, 6, 1, 10, 0, 0⟩ rfl rfl (by decide) rfl rfl
     (fun n hn => by
       simp at hn
       subst hn
       exact ⟨⟨1, "alice", "Alice", "111"⟩, rfl⟩)
     rfl⟩
